import Mathlib

set_option maxRecDepth 10000

namespace UnifiedJavaCompiler

/-! Shallow embedding of `src/compiler.py` (Unified Java Repo Compiler).
Strings are Lean `String`s; subprocess durations (Python floats, already
rounded to two decimals by the source) are modelled as rationals; external
effects - subprocess execution, HTTP fetches, the on-disk tree produced by
`git clone` - are oracle parameters supplied to each function. -/

/-- ASCII whitespace, as recognised by Python's `str.split()` /
`str.strip()` with no arguments (the model restricts itself to ASCII
whitespace; the source only ever feeds it tool output and URLs). -/
def isPyWs (c : Char) : Bool :=
  c = ' ' || c = '\t' || c = '\n' || c = '\r' || c = '\x0b' || c = '\x0c'

/-- compiler.py line 72: `msg.replace("\r"," ").replace("\n"," ").replace("\t"," ")`
applied characterwise. -/
def replaceCtl (c : Char) : Char :=
  if c = '\r' || c = '\n' || c = '\t' then ' ' else c

/-- Helper for Python `str.split()` with no separator: walk the characters
accumulating the current word in reverse; whitespace ends the word; empty
pieces are dropped. -/
def wordsAux : List Char → List Char → List (List Char)
  | [], acc => if acc.isEmpty then [] else [acc.reverse]
  | c :: cs, acc =>
    if isPyWs c then
      if acc.isEmpty then wordsAux cs [] else acc.reverse :: wordsAux cs []
    else
      wordsAux cs (c :: acc)

/-- Python `cleaned.split()` (no separator: split on whitespace runs,
dropping empty pieces). -/
def pyWords (l : List Char) : List (List Char) := wordsAux l []

/-- Python `" ".join(ws)`: the words joined by single spaces. -/
def joinWords : List (List Char) → List Char
  | [] => []
  | [w] => w
  | w :: ws => w ++ ' ' :: joinWords ws

/-- `clean_message(msg, limit)` (compiler.py lines 69-76) on character
lists: an empty message stays empty (`if not msg`); otherwise CR/LF/TAB
become spaces, whitespace runs collapse via `" ".join(cleaned.split())`,
and a result longer than `limit` is cut to its first `limit` characters
with `"..."` appended. -/
def cleanMessageL (limit : Nat) (l : List Char) : List Char :=
  if l = [] then []
  else
    let joined := joinWords (pyWords (l.map replaceCtl))
    if limit < joined.length then joined.take limit ++ ['.', '.', '.']
    else joined

/-- `clean_message(msg)` with the default `limit=300`. -/
def clean_message (msg : String) : String := ⟨cleanMessageL 300 msg.data⟩

/-- Python `s.strip()` restricted to ASCII whitespace, as used by
`load_processed` (line 81) and the CSV drivers (lines 129-131, 312). -/
def pyStrip (s : String) : String :=
  ⟨((s.data.dropWhile isPyWs).reverse.dropWhile isPyWs).reverse⟩

/-- Python `s.lower()` (ASCII), as used on the `processed` flag (line 312). -/
def pyLower (s : String) : String := ⟨s.data.map Char.toLower⟩

/-- `repo_url.rstrip("/")` (compiler.py line 262): remove every trailing
slash. -/
def rstripSlashes (url : String) : String :=
  ⟨(url.data.reverse.dropWhile (fun c => c == '/')).reverse⟩

/-- Python `s.split("/")[-1]`: the (possibly empty) segment after the last
slash, the whole string when no slash occurs, and `""` on `""`. -/
def lastSegment (s : String) : String :=
  ⟨(s.data.reverse.takeWhile (fun c => c != '/')).reverse⟩

/-- `repo_name = repo_url.rstrip("/").split("/")[-1]` (compiler.py line 262). -/
def repoNameOf (url : String) : String := lastSegment (rstripSlashes url)

/-- A path inside a checkout, relative to the repository root, as a list of
components. -/
abbrev RPath := List String

/-- A checkout's tree: the files it contains and any extra (possibly
empty) directories, both as component paths relative to the repository
root. -/
structure Checkout where
  files : List RPath
  dirs : List RPath
deriving DecidableEq

/-- The `*.java` glob on a path's final component: the file name ends in
`.java`. -/
def isJavaFile (p : RPath) : Bool :=
  match p.getLast? with
  | some n => ".java".data.isSuffixOf n.data
  | none => false

/-- `(repo_dir / d).exists()` in the model: the repository root (the empty
path) always exists; a subpath exists when it is listed in `dirs` (or is a
prefix of a listed directory) or when some file lies strictly below it. -/
def dirExists (c : Checkout) (d : RPath) : Bool :=
  d.isEmpty || c.dirs.any (fun e => d.isPrefixOf e) ||
    c.files.any (fun f => d.isPrefixOf f && d != f)

/-- `root.rglob("*.java")`: every file below `root` (including the root's
own subtrees) whose name matches `*.java`, in the tree's stored order. -/
def rglobJava (c : Checkout) (root : RPath) : List RPath :=
  c.files.filter (fun f => root.isPrefixOf f && isJavaFile f)

/-- The conventional source roots tried by the Javac branch, in order
(compiler.py lines 225-227): `src/main/java`, `src`, the repository root. -/
def src_roots : List RPath := [["src", "main", "java"], ["src"], []]

/-- compiler.py lines 228-231: `java_files.extend(root.rglob("*.java"))`
for every root of `src_roots` that exists, in root order. -/
def collectJavaFiles (c : Checkout) : List RPath :=
  src_roots.foldl
    (fun acc root => if dirExists c root then acc ++ rglobJava c root else acc) []

/-- Modelled from the spec's words, as the refinement target for the
collection rule it states: "`src/main/java`, `src`, repository root, in
that preference order, first existing root wins, not merged" - only the
first existing conventional root contributes its `*.java` files. -/
def collectJavaFilesFirstRoot (c : Checkout) : List RPath :=
  match src_roots.find? (fun root => dirExists c root) with
  | some root => rglobJava c root
  | none => []

/-- The configured runtimes, iterated in insertion order (compiler.py
lines 35-40, Python dicts preserve insertion order): the keys of
`JDK_PATHS`. The Windows installation paths only feed the per-attempt
environment rebinding (`JAVA_HOME`, `PATH`, lines 207-209), which the
execution oracle absorbs. -/
def JDK_PATHS : List String := ["jdk8", "jdk11", "jdk17", "jdk21"]

/-- The runtime loop of `compile_with_jdks` (compiler.py lines 204-258),
parameterised by an execution oracle `run` giving, per runtime identifier,
the exit code and rounded elapsed seconds of that runtime's build command
(`run_command` at line 252; a timeout is an ordinary nonzero exit, line
181). The tool-specific command construction (lines 211-249) only affects
what the oracle runs, with one observable exception kept here: the Javac
branch returns `(False, "No Java files", 0)` before running anything when
no source files are collected (lines 233-234). `last` threads
`last_elapsed` (lines 205, 253). -/
def compileGo (run : String → Int × ℚ) (build_tool : String) (c : Checkout) :
    List String → ℚ → Bool × String × ℚ
  | [], last =>
    (false, clean_message (build_tool ++ " failed on all JDKs"), max (1/100 : ℚ) last)
  | jdk :: rest, _last =>
    if build_tool ≠ "Maven" ∧ build_tool ≠ "Gradle" ∧ build_tool ≠ "Ant" ∧
        collectJavaFiles c = [] then
      (false, clean_message "No Java files", (0 : ℚ))
    else
      if (run jdk).1 = 0 then
        (true,
          clean_message ("Compiled successfully (" ++ build_tool ++ ", " ++ jdk ++ ")"),
          (run jdk).2)
      else
        compileGo run build_tool c rest (run jdk).2

/-- `compile_with_jdks(repo_dir, build_tool)` (compiler.py lines 204-258):
run the loop over the configured runtimes with `last_elapsed = 0`. -/
def compile_with_jdks (run : String → Int × ℚ) (build_tool : String) (c : Checkout) :
    Bool × String × ℚ :=
  compileGo run build_tool c JDK_PATHS 0

/-- The same loop, instrumented to also record which runtimes were handed
to `run_command`, in order. -/
def compileGoT (run : String → Int × ℚ) (build_tool : String) (c : Checkout) :
    List String → ℚ → (Bool × String × ℚ) × List String
  | [], last =>
    ((false, clean_message (build_tool ++ " failed on all JDKs"), max (1/100 : ℚ) last), [])
  | jdk :: rest, _last =>
    if build_tool ≠ "Maven" ∧ build_tool ≠ "Gradle" ∧ build_tool ≠ "Ant" ∧
        collectJavaFiles c = [] then
      ((false, clean_message "No Java files", (0 : ℚ)), [])
    else
      if (run jdk).1 = 0 then
        ((true,
          clean_message ("Compiled successfully (" ++ build_tool ++ ", " ++ jdk ++ ")"),
          (run jdk).2), [jdk])
      else
        ((compileGoT run build_tool c rest (run jdk).2).1,
          jdk :: (compileGoT run build_tool c rest (run jdk).2).2)

/-- The runtimes whose build command `compile_with_jdks` actually executes,
in execution order. -/
def compile_with_jdks_invoked (run : String → Int × ℚ) (build_tool : String)
    (c : Checkout) : List String :=
  (compileGoT run build_tool c JDK_PATHS 0).2

/-- `detect_build_tool(repo_dir)` (compiler.py lines 163-167) as a pure
function of the checkout's top-level entry names. -/
def detect_build_tool (entries : List String) : String :=
  if "pom.xml" ∈ entries then "Maven"
  else if "build.gradle" ∈ entries ∨ "build.gradle.kts" ∈ entries then "Gradle"
  else if "build.xml" ∈ entries then "Ant"
  else "Javac"

/-- The checkout's top-level entry names: the first component of every
file path and of every listed directory. -/
def topEntries (c : Checkout) : List String :=
  c.files.filterMap List.head? ++ c.dirs.filterMap List.head?

/-- `nof`, the first component of `count_java_files_and_loc` (compiler.py
lines 184-191): the number of `*.java` files anywhere under the checkout.
The line count reads file contents and stays an oracle in `RepoEnv`. -/
def count_java_nof (c : Checkout) : Nat := (c.files.filter isJavaFile).length

/-- One Result Row, the ten CSV columns of `CSV_HEADER` (compiler.py
lines 95-98). -/
structure Row where
  repoName : String
  repoUrl : String
  description : String
  buildTool : String
  status : String
  compileTime : ℚ
  message : String
  nof : Nat
  loc : Nat
  size : String
deriving DecidableEq

/-- The durable state `process_repo` touches: the three result ledgers
(rows after the header), the lines of `processed_repos.txt`, and counters
for the externally visible actions of creating a temporary directory
(line 267) and attempting a clone (line 275). -/
structure LedgerState where
  allRows : List Row
  successRows : List Row
  failedRows : List Row
  processedFile : List String
  tmpDirsCreated : Nat
  clonesAttempted : Nat
deriving DecidableEq

/-- `load_processed()` (compiler.py lines 78-81): the stripped, non-empty
lines of `processed_repos.txt` (the source builds a set; membership below
is list membership). -/
def load_processed (st : LedgerState) : List String :=
  (st.processedFile.map pyStrip).filter (fun l => l ≠ "")

/-- `save_processed(url)` (compiler.py lines 83-85): append `url + "\n"`,
i.e. one line holding `url` (URLs containing a newline are outside the
model). -/
def save_processed (url : String) (st : LedgerState) : LedgerState :=
  { st with processedFile := st.processedFile ++ [url] }

/-- The per-repository external world `process_repo` interacts with: the
clone's exit code, the tree it materialises on success, the build-command
oracle, and the content-dependent metrics (total line count; the
`format_size(get_repo_size(...))` rendering), which read file contents
and are treated as collaborator outputs. -/
structure RepoEnv where
  cloneExit : Int
  checkout : Checkout
  run : String → Int × ℚ
  loc : Nat
  sizeHuman : String

/-- `process_repo(repo_url, description, force_recompile)` (compiler.py
lines 261-295) as a state transition. `repo_name` (line 262) is inlined
as `repoNameOf repo_url` at its two uses. The `finally: shutil.rmtree`
always runs; `tmpDirsCreated` counts directory creations. -/
def process_repo (env : RepoEnv) (repo_url description : String)
    (force_recompile : Bool) (st : LedgerState) : LedgerState :=
  if ¬force_recompile ∧ repo_url ∈ load_processed st then st
  else
    let st1 := { st with tmpDirsCreated := st.tmpDirsCreated + 1,
                         clonesAttempted := st.clonesAttempted + 1 }
    if env.cloneExit ≠ 0 then
      let row : Row := ⟨repoNameOf repo_url, repo_url, description, "NA", "Failed", 0,
        clean_message "Clone Failed", 0, 0, "NA"⟩
      save_processed repo_url
        { st1 with allRows := st1.allRows ++ [row],
                   failedRows := st1.failedRows ++ [row] }
    else
      let build_tool := detect_build_tool (topEntries env.checkout)
      let res := compile_with_jdks env.run build_tool env.checkout
      let row : Row := ⟨repoNameOf repo_url, repo_url, description, build_tool,
        if res.1 then "Success" else "Failed", res.2.2,
        clean_message res.2.1, count_java_nof env.checkout, env.loc, env.sizeHuman⟩
      let st2 := { st1 with allRows := st1.allRows ++ [row] }
      let st3 :=
        if res.1 then { st2 with successRows := st2.successRows ++ [row] }
        else { st2 with failedRows := st2.failedRows ++ [row] }
      save_processed repo_url st3

/-- One row of `api-new.csv`: `api_url, processed, last_status`
(compiler.py line 123). -/
structure ApiRow where
  api_url : String
  processed : String
  last_status : String
deriving DecidableEq

/-- `save_api_rows(rows)` (compiler.py lines 122-133): the file content
written - every field stripped. -/
def save_api_rows (rows : List ApiRow) : List ApiRow :=
  rows.map (fun r => ⟨pyStrip r.api_url, pyStrip r.processed, pyStrip r.last_status⟩)

/-- One repository item of an endpoint's JSON response: a dict exposing
`html_url` and optionally `description`. -/
structure RepoItem where
  html_url : Option String
  description : Option String
deriving DecidableEq

/-- The JSON shapes `fetch_repositories_from_api` distinguishes
(compiler.py lines 149-157): an object with an `items` list, a list of
plain strings, a list of objects, or anything else (object without
`items`, mixed list, non-JSON body, ...). -/
inductive ApiJson where
  | objWithItems (items : List RepoItem)
  | listOfStrings (urls : List String)
  | listOfObjects (objs : List RepoItem)
  | otherShape
deriving DecidableEq

/-- An HTTP response from an endpoint: status code and decoded body. -/
structure ApiResponse where
  status : Nat
  body : ApiJson
deriving DecidableEq

/-- `fetch_repositories_from_api(api_url)` (compiler.py lines 139-160)
over the response oracle; `none` models the `except Exception` path
(request error, lines 158-160). -/
def fetch_repositories_from_api (resp : Option ApiResponse) : List RepoItem :=
  match resp with
  | none => []
  | some r =>
    if r.status ≠ 200 then []
    else
      match r.body with
      | ApiJson.objWithItems items => items
      | ApiJson.listOfStrings urls => urls.map (fun u => ⟨some u, some "NA"⟩)
      | ApiJson.listOfObjects objs => objs
      | ApiJson.otherShape => []

/-- `signal_handler(sig, frame)` (compiler.py lines 57-60), registered for
SIGINT and SIGTERM (lines 62-63): it sets the global `stop_requested` flag
and returns - it raises no exception, so a delivered signal never produces
a `KeyboardInterrupt` in `main`. -/
def signal_handler (_stop_requested : Bool) : Bool := true

/-- The driver's loop guard `while not stop_requested` (compiler.py
line 306): whether another pass begins. -/
def loopContinues (stop_requested : Bool) : Bool := !stop_requested

/-- The endpoint selection of `main` (compiler.py lines 310-314): the
index of the first row whose `processed` flag does not lower-case to
`"true"` and whose stripped `api_url` is non-empty. -/
def selectIdx : List ApiRow → Option Nat
  | [] => none
  | r :: rs =>
    if pyLower r.processed ≠ "true" ∧ pyStrip r.api_url ≠ "" then some 0
    else (selectIdx rs).map (fun i => i + 1)

/-- Replace the row at index `i` (Python `rows[idx][...] = ...`). -/
def updateAt : Nat → (ApiRow → ApiRow) → List ApiRow → List ApiRow
  | _, _, [] => []
  | 0, f, r :: rs => f r :: rs
  | n + 1, f, r :: rs => r :: updateAt n f rs

/-- What can befall the selected endpoint's batch inside the `try` block
of `main` (compiler.py lines 327-358): it runs to completion (`normal`);
an interruption signal is delivered mid-batch (`sigint`), which invokes
the registered `signal_handler`; a `KeyboardInterrupt` exception is
raised inside the block (`kbInterrupt`, lines 348-353); some other
exception escapes the batch (`otherError`, lines 354-355). -/
inductive BatchEvent where
  | normal
  | sigint
  | kbInterrupt
  | otherError (msg : String)
deriving DecidableEq

/-- The observable outcome of one pass of `main`'s loop body: the endpoint
rows afterwards, the content `save_api_rows` persisted (if it ran), the
`stop_requested` flag, and whether an exception propagates out of the pass
(terminating the process). -/
structure PassResult where
  rows : List ApiRow
  savedFile : Option (List ApiRow)
  stopRequested : Bool
  raised : Bool
deriving DecidableEq

/-- One iteration of `main`'s loop over a selected endpoint (compiler.py
lines 307-358). With no pending endpoint the driver idles (sleep, no
persistence). Otherwise: on completion the `try` block sets
`last_status="ok"` (line 347) and the `finally` block sets
`processed="true"` and persists (lines 356-358); a signal delivered
mid-batch only runs `signal_handler` (the batch still completes, then the
same `ok` path runs); a `KeyboardInterrupt` exception takes lines 348-353
(`interrupted`, persist, re-raise, `finally` persists again); any other
exception records `error: <msg>` (line 355) and is swallowed. The batch's
repository jobs (`_repos`) mutate only the ledgers, not the driver state. -/
def runPass (rows : List ApiRow) (_repos : List RepoItem) (ev : BatchEvent)
    (stop0 : Bool) : PassResult :=
  match selectIdx rows with
  | none => ⟨rows, none, stop0, false⟩
  | some idx =>
    match ev with
    | BatchEvent.normal =>
      let rows1 := updateAt idx
        (fun r => { r with last_status := "ok", processed := "true" }) rows
      ⟨rows1, some (save_api_rows rows1), stop0, false⟩
    | BatchEvent.sigint =>
      let rows1 := updateAt idx
        (fun r => { r with last_status := "ok", processed := "true" }) rows
      ⟨rows1, some (save_api_rows rows1), signal_handler stop0, false⟩
    | BatchEvent.kbInterrupt =>
      let rows1 := updateAt idx
        (fun r => { r with last_status := "interrupted", processed := "true" }) rows
      ⟨rows1, some (save_api_rows rows1), stop0, true⟩
    | BatchEvent.otherError m =>
      let rows1 := updateAt idx
        (fun r => { r with last_status := "error: " ++ m, processed := "true" }) rows
      ⟨rows1, some (save_api_rows rows1), stop0, false⟩

/-! ### Helper lemmas -/

lemma mem_takeWhile_pred {α : Type} {p : α → Bool} :
    ∀ {l : List α} {a : α}, a ∈ l.takeWhile p → p a = true := by
  intro l
  induction l with
  | nil => intro a h; simp [List.takeWhile] at h
  | cons x xs ih =>
    intro a h
    rw [List.takeWhile_cons] at h
    by_cases hx : p x = true
    · rw [if_pos hx] at h
      rcases List.mem_cons.mp h with rfl | h2
      · exact hx
      · exact ih h2
    · rw [if_neg hx] at h
      exact absurd h (List.not_mem_nil a)

lemma mem_rglobJava {c : Checkout} {root : RPath} {f : RPath}
    (h : f ∈ rglobJava c root) : f ∈ c.files ∧ isJavaFile f = true := by
  obtain ⟨h1, h2⟩ := List.mem_filter.mp h
  rw [Bool.and_eq_true] at h2
  exact ⟨h1, h2.2⟩

/-! ### C2 -/

/-- C2: `detect_build_tool` is a total pure function of the top-level file
listing; priority is Maven (`pom.xml`) over Gradle (`build.gradle` or
`build.gradle.kts`) over Ant (`build.xml`) over the universal fallback
Javac, and its result is always exactly one of those four
classifications. -/
theorem detect_build_tool_priority (entries : List String) :
    ("pom.xml" ∈ entries → detect_build_tool entries = "Maven") ∧
    ("pom.xml" ∉ entries →
      ("build.gradle" ∈ entries ∨ "build.gradle.kts" ∈ entries) →
      detect_build_tool entries = "Gradle") ∧
    ("pom.xml" ∉ entries → "build.gradle" ∉ entries →
      "build.gradle.kts" ∉ entries → "build.xml" ∈ entries →
      detect_build_tool entries = "Ant") ∧
    ("pom.xml" ∉ entries → "build.gradle" ∉ entries →
      "build.gradle.kts" ∉ entries → "build.xml" ∉ entries →
      detect_build_tool entries = "Javac") ∧
    detect_build_tool entries ∈ (["Maven", "Gradle", "Ant", "Javac"] : List String) := by
  refine ⟨fun h => ?_, fun h1 h2 => ?_, fun h1 h2 h3 h4 => ?_,
    fun h1 h2 h3 h4 => ?_, ?_⟩
  · rw [detect_build_tool, if_pos h]
  · rw [detect_build_tool, if_neg h1, if_pos h2]
  · rw [detect_build_tool, if_neg h1, if_neg (fun h => h.elim h2 h3), if_pos h4]
  · rw [detect_build_tool, if_neg h1, if_neg (fun h => h.elim h2 h3), if_neg h4]
  · by_cases h1 : "pom.xml" ∈ entries
    · simp [detect_build_tool, h1]
    by_cases h2 : "build.gradle" ∈ entries ∨ "build.gradle.kts" ∈ entries
    · simp [detect_build_tool, h1, h2]
    by_cases h3 : "build.xml" ∈ entries
    · simp [detect_build_tool, h1, h2, h3]
    · simp [detect_build_tool, h1, h2, h3]

/-- Witness for C2 at a checkout holding all three descriptors. -/
theorem detect_build_tool_priority_witness :
    detect_build_tool ["pom.xml", "build.gradle", "build.xml"] = "Maven" :=
  (detect_build_tool_priority _).1 (by decide)

/-! ### C8 -/

/-- C8: for a `RawSourceTree` (Javac) checkout with no source files under
the conventional roots, `compile_with_jdks` returns immediately with
`succeeded=false`, the message exactly `"No Java files"` and elapsed time
exactly `0`, and no runtime's compiler command is executed. -/
theorem compile_with_jdks_no_java_files (run : String → Int × ℚ) (c : Checkout)
    (hempty : collectJavaFiles c = []) :
    compile_with_jdks run "Javac" c = (false, "No Java files", 0) ∧
    compile_with_jdks_invoked run "Javac" c = [] := by
  have hmsg : clean_message "No Java files" = "No Java files" := by decide
  have hcond : ("Javac" : String) ≠ "Maven" ∧ ("Javac" : String) ≠ "Gradle" ∧
      ("Javac" : String) ≠ "Ant" ∧ collectJavaFiles c = [] :=
    ⟨by decide, by decide, by decide, hempty⟩
  constructor
  · show compileGo run "Javac" c JDK_PATHS 0 = _
    rw [JDK_PATHS]
    rw [show compileGo run "Javac" c ("jdk8" :: ["jdk11", "jdk17", "jdk21"]) 0 =
      if ("Javac" : String) ≠ "Maven" ∧ ("Javac" : String) ≠ "Gradle" ∧
          ("Javac" : String) ≠ "Ant" ∧ collectJavaFiles c = [] then
        (false, clean_message "No Java files", (0 : ℚ))
      else
        if (run "jdk8").1 = 0 then
          (true,
            clean_message ("Compiled successfully (" ++ "Javac" ++ ", " ++ "jdk8" ++ ")"),
            (run "jdk8").2)
        else compileGo run "Javac" c ["jdk11", "jdk17", "jdk21"] (run "jdk8").2 from rfl]
    rw [if_pos hcond, hmsg]
  · show (compileGoT run "Javac" c JDK_PATHS 0).2 = []
    rw [JDK_PATHS]
    rw [show compileGoT run "Javac" c ("jdk8" :: ["jdk11", "jdk17", "jdk21"]) 0 =
      if ("Javac" : String) ≠ "Maven" ∧ ("Javac" : String) ≠ "Gradle" ∧
          ("Javac" : String) ≠ "Ant" ∧ collectJavaFiles c = [] then
        ((false, clean_message "No Java files", (0 : ℚ)), [])
      else
        if (run "jdk8").1 = 0 then
          ((true,
            clean_message ("Compiled successfully (" ++ "Javac" ++ ", " ++ "jdk8" ++ ")"),
            (run "jdk8").2), ["jdk8"])
        else
          ((compileGoT run "Javac" c ["jdk11", "jdk17", "jdk21"] (run "jdk8").2).1,
            "jdk8" :: (compileGoT run "Javac" c ["jdk11", "jdk17", "jdk21"] (run "jdk8").2).2)
        from rfl]
    rw [if_pos hcond]

/-- Witness for C8: a checkout holding only a README, under an oracle that
would report success - it is never consulted. -/
theorem compile_with_jdks_no_java_files_witness :
    compile_with_jdks (fun _ => ((0 : Int), (1 : ℚ))) "Javac" ⟨[["README.md"]], []⟩ =
      (false, "No Java files", 0) :=
  (compile_with_jdks_no_java_files _ _ (by decide)).1

/-! ### C10 -/

/-- C10: the Repo Name recorded for a Result Row is the segment after the
last slash of the URL with trailing slashes removed first: it never
contains a slash, it is a suffix of the slash-stripped URL, a trailing
slash does not change it, and an empty or all-slash URL yields the empty
name. -/
theorem repo_name_extraction (url : String) :
    repoNameOf (url ++ "/") = repoNameOf url ∧
    repoNameOf "" = "" ∧
    (∀ c ∈ (repoNameOf url).data, c ≠ '/') ∧
    (repoNameOf url).data <:+ (rstripSlashes url).data ∧
    ((∀ c ∈ url.data, c = '/') → repoNameOf url = "") := by
  obtain ⟨l⟩ := url
  refine ⟨?_, by decide, ?_, ?_, ?_⟩
  · show lastSegment (rstripSlashes (⟨l⟩ ++ "/")) = lastSegment (rstripSlashes ⟨l⟩)
    have : rstripSlashes (⟨l⟩ ++ "/") = rstripSlashes ⟨l⟩ := by
      show rstripSlashes ⟨l ++ ['/']⟩ = rstripSlashes ⟨l⟩
      unfold rstripSlashes
      rw [List.reverse_append]
      simp [List.dropWhile_cons]
    rw [this]
  · intro c hc
    have hc2 : c ∈ ((rstripSlashes ⟨l⟩).data.reverse.takeWhile (fun c => c != '/')) :=
      List.mem_reverse.mp hc
    have := mem_takeWhile_pred hc2
    exact fun heq => by simp [heq] at this
  · refine ⟨((rstripSlashes ⟨l⟩).data.reverse.dropWhile (fun c => c != '/')).reverse, ?_⟩
    show (List.dropWhile _ _).reverse ++ (List.takeWhile _ _).reverse = _
    rw [← List.reverse_append, List.takeWhile_append_dropWhile, List.reverse_reverse]
  · intro h
    have hnil : l.reverse.dropWhile (fun c => c == '/') = [] := by
      rw [List.dropWhile_eq_nil_iff]
      intro a ha
      have := h a (List.mem_reverse.mp ha)
      simp [this]
    show lastSegment (rstripSlashes ⟨l⟩) = ""
    unfold rstripSlashes
    rw [hnil]
    decide

/-- Witness for C10 on an all-slash URL. -/
theorem repo_name_extraction_witness : repoNameOf "///" = "" :=
  (repo_name_extraction "///").2.2.2.2 (by decide)

/-! ### C3 -/

/-- C3 counterexample: in a checkout with `src/A.java` and a top-level
`B.java`, the code collects from `src` AND from the repository root
(`B.java` included, `src/A.java` twice), while the spec's
first-existing-root rule would collect only `src/A.java`. -/
theorem collect_java_first_root_cex :
    collectJavaFiles ⟨[["src", "A.java"], ["B.java"]], []⟩ =
      [["src", "A.java"], ["src", "A.java"], ["B.java"]] ∧
    collectJavaFilesFirstRoot ⟨[["src", "A.java"], ["B.java"]], []⟩ =
      [["src", "A.java"]] ∧
    collectJavaFiles ⟨[["src", "A.java"], ["B.java"]], []⟩ ≠
      collectJavaFilesFirstRoot ⟨[["src", "A.java"], ["B.java"]], []⟩ := by
  decide

/-- C3 amended: every existing conventional root contributes its files
(the lists are concatenated, not the first existing root alone); since
the repository root always exists, the collected list holds exactly the
`.java` files of the checkout (with files below `src`/`src/main/java`
listed once per containing root). -/
theorem collect_java_all_existing_roots (c : Checkout) (f : RPath) :
    f ∈ collectJavaFiles c ↔ f ∈ c.files ∧ isJavaFile f = true := by
  have hroot : dirExists c [] = true := by simp [dirExists]
  unfold collectJavaFiles src_roots
  rw [List.foldl_cons, List.foldl_cons, List.foldl_cons, List.foldl_nil]
  constructor
  · intro h
    rw [if_pos hroot] at h
    rcases List.mem_append.mp h with h | h
    · split at h
      · rcases List.mem_append.mp h with h | h
        · split at h
          · rw [List.nil_append] at h
            exact mem_rglobJava h
          · exact absurd h (List.not_mem_nil f)
        · exact mem_rglobJava h
      · split at h
        · rw [List.nil_append] at h
          exact mem_rglobJava h
        · exact absurd h (List.not_mem_nil f)
    · exact mem_rglobJava h
  · rintro ⟨hf, hj⟩
    rw [if_pos hroot]
    refine List.mem_append_right _ (List.mem_filter.mpr ⟨hf, ?_⟩)
    simp [List.isPrefixOf, hj]

/-- Witness for C3's amended statement: a top-level `A.java` is compiled
even though no conventional `src` root exists. -/
theorem collect_java_all_existing_roots_witness :
    (["A.java"] : RPath) ∈ collectJavaFiles ⟨[["A.java"]], []⟩ :=
  (collect_java_all_existing_roots _ _).mpr (by decide)

lemma compileGoT_fst (run : String → Int × ℚ) (bt : String) (c : Checkout) :
    ∀ (jdks : List String) (last : ℚ),
      (compileGoT run bt c jdks last).1 = compileGo run bt c jdks last := by
  intro jdks
  induction jdks with
  | nil => intro last; rfl
  | cons jdk rest ih =>
    intro last
    simp only [compileGoT, compileGo]
    by_cases hP : bt ≠ "Maven" ∧ bt ≠ "Gradle" ∧ bt ≠ "Ant" ∧ collectJavaFiles c = []
    · rw [if_pos hP, if_pos hP]
    · rw [if_neg hP, if_neg hP]
      by_cases hr : (run jdk).1 = 0
      · rw [if_pos hr, if_pos hr]
      · rw [if_neg hr, if_neg hr]
        exact ih _

lemma compileGoT_first_success (run : String → Int × ℚ) (bt : String) (c : Checkout)
    (hok : ¬(bt ≠ "Maven" ∧ bt ≠ "Gradle" ∧ bt ≠ "Ant" ∧ collectJavaFiles c = [])) :
    ∀ (l1 : List String) (jdk : String) (l2 : List String) (last : ℚ),
      (∀ j ∈ l1, (run j).1 ≠ 0) → (run jdk).1 = 0 →
      compileGoT run bt c (l1 ++ jdk :: l2) last =
        ((true,
          clean_message ("Compiled successfully (" ++ bt ++ ", " ++ jdk ++ ")"),
          (run jdk).2), l1 ++ [jdk]) := by
  intro l1
  induction l1 with
  | nil =>
    intro jdk l2 last hf hw
    rw [List.nil_append, List.nil_append]
    simp only [compileGoT]
    rw [if_neg hok, if_pos hw]
  | cons j rest ih =>
    intro jdk l2 last hf hw
    rw [List.cons_append]
    simp only [compileGoT]
    rw [if_neg hok, if_neg (hf j (List.mem_cons_self j rest)),
      ih jdk l2 ((run j).2) (fun x hx => hf x (List.mem_cons_of_mem j hx)) hw,
      List.cons_append]

/-! ### C1 -/

/-- C1: `compile_with_jdks` iterates the configured runtimes in their
fixed order and stops at the first runtime whose build command exits with
code zero: it returns a success outcome whose message names that runtime
and whose elapsed time is that attempt's duration, and no later runtime
in the list is invoked. -/
theorem compile_with_jdks_first_success_wins
    (run : String → Int × ℚ) (build_tool : String) (c : Checkout)
    (l1 : List String) (jdk : String) (l2 : List String)
    (hsplit : JDK_PATHS = l1 ++ jdk :: l2)
    (hfail : ∀ j ∈ l1, (run j).1 ≠ 0)
    (hwin : (run jdk).1 = 0)
    (htool : build_tool ∈ (["Maven", "Gradle", "Ant", "Javac"] : List String))
    (hfiles : build_tool = "Javac" → collectJavaFiles c ≠ []) :
    compile_with_jdks run build_tool c =
      (true,
        clean_message ("Compiled successfully (" ++ build_tool ++ ", " ++ jdk ++ ")"),
        (run jdk).2) ∧
    compile_with_jdks_invoked run build_tool c = l1 ++ [jdk] ∧
    jdk.data <:+:
      (clean_message
        ("Compiled successfully (" ++ build_tool ++ ", " ++ jdk ++ ")")).data := by
  simp only [List.mem_cons, List.not_mem_nil, or_false] at htool
  have hok : ¬(build_tool ≠ "Maven" ∧ build_tool ≠ "Gradle" ∧ build_tool ≠ "Ant" ∧
      collectJavaFiles c = []) := by
    rintro ⟨h1, h2, h3, h4⟩
    rcases htool with rfl | rfl | rfl | rfl
    · exact h1 rfl
    · exact h2 rfl
    · exact h3 rfl
    · exact hfiles rfl h4
  have key := compileGoT_first_success run build_tool c hok l1 jdk l2 0 hfail hwin
  refine ⟨?_, ?_, ?_⟩
  · show compileGo run build_tool c JDK_PATHS 0 = _
    rw [← compileGoT_fst, hsplit, key]
  · show (compileGoT run build_tool c JDK_PATHS 0).2 = _
    rw [hsplit, key]
  · have hj : jdk ∈ JDK_PATHS := by
      rw [hsplit]
      exact List.mem_append_right _ (List.mem_cons_self _ _)
    simp only [JDK_PATHS, List.mem_cons, List.not_mem_nil, or_false] at hj
    rcases htool with rfl | rfl | rfl | rfl <;>
      rcases hj with rfl | rfl | rfl | rfl <;> decide

/-- Witness for C1: the second runtime succeeds, the first fails; the
outcome names `jdk11` and carries its duration. -/
theorem compile_with_jdks_first_success_wins_witness :
    compile_with_jdks
        (fun j => if j = "jdk11" then ((0 : Int), (7 : ℚ)) else (1, 3))
        "Maven" ⟨[], []⟩ =
      (true,
        clean_message ("Compiled successfully (" ++ "Maven" ++ ", " ++ "jdk11" ++ ")"),
        7) ∧
    compile_with_jdks_invoked
        (fun j => if j = "jdk11" then ((0 : Int), (7 : ℚ)) else (1, 3))
        "Maven" ⟨[], []⟩ = ["jdk8", "jdk11"] := by
  have h := compile_with_jdks_first_success_wins
    (fun j => if j = "jdk11" then ((0 : Int), (7 : ℚ)) else (1, 3))
    "Maven" ⟨[], []⟩ ["jdk8"] "jdk11" ["jdk17", "jdk21"]
    (by decide) (by decide) (by decide) (by decide)
    (fun hc => absurd hc (by decide))
  exact ⟨h.1, h.2.1⟩

/-! ### C7 -/

/-- C7: when every configured runtime fails, `compile_with_jdks` returns
`succeeded=false` with a message naming the build tool, and an elapsed
time equal to the last attempt's duration floored at `0.01` seconds,
hence strictly positive. -/
theorem compile_with_jdks_exhaustion
    (run : String → Int × ℚ) (build_tool : String) (c : Checkout)
    (htool : build_tool ∈ (["Maven", "Gradle", "Ant", "Javac"] : List String))
    (hfiles : build_tool = "Javac" → collectJavaFiles c ≠ [])
    (hfail : ∀ j ∈ JDK_PATHS, (run j).1 ≠ 0) :
    compile_with_jdks run build_tool c =
      (false, clean_message (build_tool ++ " failed on all JDKs"),
        max (1/100 : ℚ) ((run "jdk21").2)) ∧
    build_tool.data <:+:
      (clean_message (build_tool ++ " failed on all JDKs")).data ∧
    0 < max (1/100 : ℚ) ((run "jdk21").2) := by
  simp only [List.mem_cons, List.not_mem_nil, or_false] at htool
  have hok : ¬(build_tool ≠ "Maven" ∧ build_tool ≠ "Gradle" ∧ build_tool ≠ "Ant" ∧
      collectJavaFiles c = []) := by
    rintro ⟨h1, h2, h3, h4⟩
    rcases htool with rfl | rfl | rfl | rfl
    · exact h1 rfl
    · exact h2 rfl
    · exact h3 rfl
    · exact hfiles rfl h4
  have h8 : (run "jdk8").1 ≠ 0 := hfail _ (by decide)
  have h11 : (run "jdk11").1 ≠ 0 := hfail _ (by decide)
  have h17 : (run "jdk17").1 ≠ 0 := hfail _ (by decide)
  have h21 : (run "jdk21").1 ≠ 0 := hfail _ (by decide)
  refine ⟨?_, ?_, ?_⟩
  · show compileGo run build_tool c JDK_PATHS 0 = _
    rw [JDK_PATHS]
    simp only [compileGo]
    rw [if_neg hok, if_neg h8, if_neg hok, if_neg h11, if_neg hok, if_neg h17,
      if_neg hok, if_neg h21]
  · rcases htool with rfl | rfl | rfl | rfl <;> decide
  · exact lt_of_lt_of_le (by norm_num) (le_max_left _ _)

/-- Witness for C7 under an oracle on which every runtime exits 1 after
five seconds. -/
theorem compile_with_jdks_exhaustion_witness :
    compile_with_jdks (fun _ => ((1 : Int), (5 : ℚ))) "Gradle" ⟨[], []⟩ =
      (false, clean_message ("Gradle" ++ " failed on all JDKs"),
        max (1/100 : ℚ) 5) :=
  (compile_with_jdks_exhaustion _ _ _ (by decide)
    (fun hc => absurd hc (by decide)) (fun j hj => by decide)).1

/-! ### C9 -/

lemma wordsAux_good : ∀ (l acc : List Char), (∀ c ∈ acc, isPyWs c = false) →
    ∀ w ∈ wordsAux l acc, w ≠ [] ∧ ∀ c ∈ w, isPyWs c = false := by
  intro l
  induction l with
  | nil =>
    intro acc hacc w hw
    simp only [wordsAux] at hw
    split at hw
    · exact absurd hw (List.not_mem_nil w)
    · rename_i hne
      rw [List.mem_singleton] at hw
      subst hw
      refine ⟨fun h0 => hne ?_, fun c hc => hacc c (List.mem_reverse.mp hc)⟩
      rw [List.reverse_eq_nil_iff] at h0
      rw [h0]
      rfl
  | cons x xs ih =>
    intro acc hacc w hw
    simp only [wordsAux] at hw
    by_cases hx : isPyWs x = true
    · rw [if_pos hx] at hw
      split at hw
      · exact ih [] (fun c hc => absurd hc (List.not_mem_nil c)) w hw
      · rename_i hne
        rcases List.mem_cons.mp hw with rfl | hw2
        · refine ⟨fun h0 => hne ?_, fun c hc => hacc c (List.mem_reverse.mp hc)⟩
          rw [List.reverse_eq_nil_iff] at h0
          rw [h0]
          rfl
        · exact ih [] (fun c hc => absurd hc (List.not_mem_nil c)) w hw2
    · rw [if_neg hx] at hw
      refine ih (x :: acc) ?_ w hw
      intro c hc
      rcases List.mem_cons.mp hc with rfl | hc2
      · exact Bool.not_eq_true _ ▸ hx
      · exact hacc c hc2

lemma joinWords_chars : ∀ (ws : List (List Char)),
    (∀ w ∈ ws, ∀ c ∈ w, isPyWs c = false) →
    ∀ c ∈ joinWords ws, c = ' ' ∨ isPyWs c = false := by
  intro ws
  induction ws with
  | nil => intro _ c hc; exact absurd hc (List.not_mem_nil c)
  | cons w ws ih =>
    intro h c hc
    cases ws with
    | nil => exact Or.inr (h w (List.mem_cons_self _ _) c hc)
    | cons w2 ws2 =>
      rw [show joinWords (w :: w2 :: ws2) = w ++ ' ' :: joinWords (w2 :: ws2) from rfl]
        at hc
      rcases List.mem_append.mp hc with h1 | h1
      · exact Or.inr (h w (List.mem_cons_self _ _) c h1)
      · rcases List.mem_cons.mp h1 with rfl | h2
        · exact Or.inl rfl
        · exact ih (fun u hu => h u (List.mem_cons_of_mem _ hu)) c h2

lemma chain_of_no_ws : ∀ (w : List Char), (∀ c ∈ w, isPyWs c = false) →
    List.Chain' (fun a b => ¬(isPyWs a = true ∧ isPyWs b = true)) w := by
  intro w
  induction w with
  | nil => intro _; exact List.chain'_nil
  | cons x xs ih =>
    intro h
    rw [List.chain'_cons']
    refine ⟨?_, ih (fun c hc => h c (List.mem_cons_of_mem _ hc))⟩
    intro y _ hcontra
    have hx := h x (List.mem_cons_self _ _)
    rw [hx] at hcontra
    exact absurd hcontra.1 (by decide)

lemma joinWords_head : ∀ (w : List Char) (ws : List (List Char)), w ≠ [] →
    (joinWords (w :: ws)).head? = w.head? := by
  intro w ws hw
  cases ws with
  | nil => rfl
  | cons w2 ws2 =>
    show (w ++ ' ' :: joinWords (w2 :: ws2)).head? = w.head?
    cases w with
    | nil => exact absurd rfl hw
    | cons a as => rfl

lemma joinWords_chain : ∀ (ws : List (List Char)),
    (∀ w ∈ ws, w ≠ [] ∧ ∀ c ∈ w, isPyWs c = false) →
    List.Chain' (fun a b => ¬(isPyWs a = true ∧ isPyWs b = true)) (joinWords ws) := by
  intro ws
  induction ws with
  | nil => intro _; exact List.chain'_nil
  | cons w ws ih =>
    intro h
    cases ws with
    | nil => exact chain_of_no_ws w (h w (List.mem_cons_self _ _)).2
    | cons w2 ws2 =>
      show List.Chain' _ (w ++ ' ' :: joinWords (w2 :: ws2))
      rw [List.chain'_append]
      have hw2 := h w2 (List.mem_cons_of_mem _ (List.mem_cons_self _ _))
      refine ⟨chain_of_no_ws w (h w (List.mem_cons_self _ _)).2, ?_, ?_⟩
      · rw [List.chain'_cons']
        refine ⟨?_, ih (fun u hu => h u (List.mem_cons_of_mem _ hu))⟩
        intro y hy hcontra
        rw [joinWords_head w2 ws2 hw2.1] at hy
        have hyw : y ∈ w2 := List.mem_of_mem_head? hy
        have := hw2.2 y hyw
        rw [this] at hcontra
        exact absurd hcontra.2 (by decide)
      · intro x hx y hy
        rw [show (' ' :: joinWords (w2 :: ws2)).head? = some ' ' from rfl] at hy
        have hy2 : y = ' ' := by
          cases hy
          rfl
        subst hy2
        have hxw : x ∈ w := List.mem_of_mem_getLast? hx
        have := (h w (List.mem_cons_self _ _)).2 x hxw
        rintro ⟨hx1, _⟩
        rw [this] at hx1
        exact absurd hx1 (by decide)

lemma not_crlf_of_char (c : Char) (h : c = ' ' ∨ isPyWs c = false) :
    c ≠ '\r' ∧ c ≠ '\n' ∧ c ≠ '\t' := by
  rcases h with rfl | h
  · exact ⟨by decide, by decide, by decide⟩
  · refine ⟨?_, ?_, ?_⟩ <;> rintro rfl <;> exact absurd h (by decide)

/-- C9 counterexample: on a 301-character message the stored message has
length 303 (300 kept characters plus `"..."`), violating the claimed
300-character bound. -/
theorem clean_message_limit_cex :
    (clean_message ⟨List.replicate 301 'a'⟩).length = 303 ∧
    ¬((clean_message ⟨List.replicate 301 'a'⟩).length ≤ 300) := by decide

/-- C9 amended: every stored message is whitespace-normalized - it
contains no carriage return, newline or tab, and no two adjacent
whitespace characters (runs are collapsed to single spaces) - and is at
most 303 characters long (at most 300 message characters plus the
truncation marker `"..."`). -/
theorem clean_message_normalized (msg : String) :
    (∀ c ∈ (clean_message msg).data, c ≠ '\r' ∧ c ≠ '\n' ∧ c ≠ '\t') ∧
    List.Chain' (fun a b => ¬(isPyWs a = true ∧ isPyWs b = true))
      (clean_message msg).data ∧
    (clean_message msg).length ≤ 303 := by
  have hdata : (clean_message msg).data = cleanMessageL 300 msg.data := rfl
  have hlen : (clean_message msg).length = (cleanMessageL 300 msg.data).length := rfl
  by_cases h0 : msg.data = []
  · rw [hdata, hlen]
    unfold cleanMessageL
    rw [if_pos h0]
    exact ⟨fun c hc => absurd hc (List.not_mem_nil c), List.chain'_nil, by norm_num⟩
  · have hgood : ∀ w ∈ pyWords (msg.data.map replaceCtl),
        w ≠ [] ∧ ∀ c ∈ w, isPyWs c = false :=
      wordsAux_good _ [] (fun c hc => absurd hc (List.not_mem_nil c))
    have hchars : ∀ c ∈ joinWords (pyWords (msg.data.map replaceCtl)),
        c = ' ' ∨ isPyWs c = false :=
      joinWords_chars _ (fun w hw => (hgood w hw).2)
    have hchain :=
      joinWords_chain (pyWords (msg.data.map replaceCtl)) hgood
    rw [hdata, hlen]
    unfold cleanMessageL
    rw [if_neg h0]
    by_cases htr : 300 < (joinWords (pyWords (msg.data.map replaceCtl))).length
    · rw [if_pos htr]
      refine ⟨?_, ?_, ?_⟩
      · intro c hc
        rcases List.mem_append.mp hc with h1 | h1
        · exact not_crlf_of_char c (hchars c (List.take_subset _ _ h1))
        · have : c = '.' := by
            rcases List.mem_cons.mp h1 with rfl | h2
            · rfl
            rcases List.mem_cons.mp h2 with rfl | h3
            · rfl
            rcases List.mem_cons.mp h3 with rfl | h4
            · rfl
            · exact absurd h4 (List.not_mem_nil c)
          subst this
          exact ⟨by decide, by decide, by decide⟩
      · have htake : List.Chain'
            (fun a b => ¬(isPyWs a = true ∧ isPyWs b = true))
            ((joinWords (pyWords (msg.data.map replaceCtl))).take 300) := by
          have h2 := hchain
          rw [← List.take_append_drop 300
            (joinWords (pyWords (msg.data.map replaceCtl)))] at h2
          exact (List.chain'_append.mp h2).1
        rw [List.chain'_append]
        refine ⟨htake, chain_of_no_ws _ (by decide), ?_⟩
        intro x hx y hy
        have hy2 : y = '.' := by
          cases hy
          rfl
        subst hy2
        rintro ⟨_, hc2⟩
        exact absurd hc2 (by decide)
      · rw [List.length_append, List.length_take]
        have := min_le_left 300 (joinWords (pyWords (msg.data.map replaceCtl))).length
        simp only [List.length_cons, List.length_nil]
        omega
    · rw [if_neg htr]
      exact ⟨fun c hc => not_crlf_of_char c (hchars c hc), hchain,
        le_trans (Nat.not_lt.mp htr) (by norm_num)⟩

/-- Witness for C9's amended statement at a message holding CR, LF and
TAB characters. -/
theorem clean_message_normalized_witness :
    (clean_message "a\r\nb\tc").length ≤ 303 :=
  (clean_message_normalized "a\r\nb\tc").2.2

/-! ### C4 -/

lemma process_repo_new_effect (env : RepoEnv) (url descr : String)
    (st : LedgerState) (hnew : url ∉ load_processed st) :
    (process_repo env url descr false st).processedFile =
      st.processedFile ++ [url] ∧
    (process_repo env url descr false st).allRows.length =
      st.allRows.length + 1 := by
  simp only [process_repo, save_processed]
  rw [if_neg (fun h => hnew h.2)]
  split
  · exact ⟨rfl, by simp⟩
  · split
    · exact ⟨rfl, by simp⟩
    · exact ⟨rfl, by simp⟩

/-- C4 counterexample: with `repo_url = ""` (whose stripped line never
enters the Processed Set, because `load_processed` drops empty lines) two
calls with `force=false` append two Result Rows and create two temporary
directories - the second call is not a no-op. -/
theorem process_repo_twice_empty_url_cex :
    (process_repo ⟨1, ⟨[], []⟩, fun _ => (1, 0), 0, "NA"⟩ "" "NA" false
      (process_repo ⟨1, ⟨[], []⟩, fun _ => (1, 0), 0, "NA"⟩ "" "NA" false
        ⟨[], [], [], [], 0, 0⟩)).allRows.length = 2 ∧
    (process_repo ⟨1, ⟨[], []⟩, fun _ => (1, 0), 0, "NA"⟩ "" "NA" false
      (process_repo ⟨1, ⟨[], []⟩, fun _ => (1, 0), 0, "NA"⟩ "" "NA" false
        ⟨[], [], [], [], 0, 0⟩)).tmpDirsCreated = 2 ∧
    load_processed
      (process_repo ⟨1, ⟨[], []⟩, fun _ => (1, 0), 0, "NA"⟩ "" "NA" false
        (process_repo ⟨1, ⟨[], []⟩, fun _ => (1, 0), 0, "NA"⟩ "" "NA" false
          ⟨[], [], [], [], 0, 0⟩)) = [] := by decide

/-- C4 amended: for every `repo_url` that is non-empty and unchanged by
whitespace stripping (any well-formed URL), calling `process_repo` twice
with `force=false` appends exactly one Result Row total, records the URL
in the processed file once, and the second call - finding the URL in the
Processed Set - changes nothing at all: no clone, no ledger append, no
temporary directory. -/
theorem process_repo_idempotent (env : RepoEnv) (url descr : String)
    (st0 : LedgerState) (hstrip : pyStrip url = url) (hne : url ≠ "")
    (hnew : url ∉ load_processed st0) :
    process_repo env url descr false (process_repo env url descr false st0) =
      process_repo env url descr false st0 ∧
    (process_repo env url descr false st0).allRows.length =
      st0.allRows.length + 1 ∧
    (process_repo env url descr false st0).processedFile =
      st0.processedFile ++ [url] := by
  obtain ⟨hpf, hlen⟩ := process_repo_new_effect env url descr st0 hnew
  refine ⟨?_, hlen, hpf⟩
  have hmem : url ∈ load_processed (process_repo env url descr false st0) := by
    unfold load_processed
    rw [hpf, List.map_append, List.filter_append]
    refine List.mem_append_right _ ?_
    rw [List.map_cons, List.map_nil, hstrip]
    simp [hne]
  generalize hgen : process_repo env url descr false st0 = st1 at hmem ⊢
  unfold process_repo
  rw [if_pos ⟨by decide, hmem⟩]

/-- Witness for C4's amended statement at the one-letter URL `"u"`. -/
theorem process_repo_idempotent_witness :
    process_repo ⟨1, ⟨[], []⟩, fun _ => (1, 0), 0, "NA"⟩ "u" "NA" false
        (process_repo ⟨1, ⟨[], []⟩, fun _ => (1, 0), 0, "NA"⟩ "u" "NA" false
          ⟨[], [], [], [], 0, 0⟩) =
      process_repo ⟨1, ⟨[], []⟩, fun _ => (1, 0), 0, "NA"⟩ "u" "NA" false
        ⟨[], [], [], [], 0, 0⟩ :=
  (process_repo_idempotent _ _ _ _ (by decide) (by decide) (by decide)).1

/-! ### Driver lemmas -/

lemma selectIdx_lt : ∀ (rows : List ApiRow) (i : Nat),
    selectIdx rows = some i → i < rows.length := by
  intro rows
  induction rows with
  | nil => intro i h; simp [selectIdx] at h
  | cons r rs ih =>
    intro i h
    simp only [selectIdx] at h
    split at h
    · cases h
      exact Nat.succ_pos _
    · cases hsel : selectIdx rs with
      | none => rw [hsel] at h; simp at h
      | some j =>
        rw [hsel] at h
        simp only [Option.map_some'] at h
        cases h
        have := ih j hsel
        simp only [List.length_cons]
        omega

lemma updateAt_get_self : ∀ (rows : List ApiRow) (i : Nat) (f : ApiRow → ApiRow),
    i < rows.length → (updateAt i f rows)[i]? = (rows[i]?).map f := by
  intro rows
  induction rows with
  | nil => intro i f h; simp at h
  | cons r rs ih =>
    intro i f h
    cases i with
    | zero => simp [updateAt]
    | succ n =>
      simp only [updateAt]
      rw [List.getElem?_cons_succ, List.getElem?_cons_succ]
      exact ih n f (Nat.lt_of_succ_lt_succ h)

lemma updateAt_get_other : ∀ (rows : List ApiRow) (i j : Nat) (f : ApiRow → ApiRow),
    j ≠ i → (updateAt i f rows)[j]? = rows[j]? := by
  intro rows
  induction rows with
  | nil => intro i j f _; simp [updateAt]
  | cons r rs ih =>
    intro i j f h
    cases i with
    | zero =>
      cases j with
      | zero => exact absurd rfl h
      | succ m =>
        simp only [updateAt]
        rw [List.getElem?_cons_succ, List.getElem?_cons_succ]
    | succ n =>
      cases j with
      | zero => simp [updateAt]
      | succ m =>
        simp only [updateAt]
        rw [List.getElem?_cons_succ, List.getElem?_cons_succ]
        exact ih n m f (fun hc => h (by rw [hc]))

/-! ### C5 -/

/-- C5 counterexample: a signal delivered mid-batch leaves the selected
endpoint marked `processed="true"` with `last_status="ok"` - not
`"interrupted"` - and nothing is re-raised: the registered handler only
sets the stop flag. -/
theorem signal_mid_batch_marks_ok_cex :
    (runPass [⟨"http://api.example/repos", "", ""⟩] [] BatchEvent.sigint false).rows =
      [⟨"http://api.example/repos", "true", "ok"⟩] ∧
    (runPass [⟨"http://api.example/repos", "", ""⟩] []
      BatchEvent.sigint false).raised = false ∧
    ((runPass [⟨"http://api.example/repos", "", ""⟩] []
        BatchEvent.sigint false).rows[0]?).map ApiRow.last_status ≠
      some "interrupted" := by decide

/-- C5 amended: an interruption signal delivered mid-batch invokes the
registered `signal_handler`, which only sets the stop flag and raises
nothing; the batch completes, the selected endpoint is marked
`processed="true"` with `last_status="ok"` (other rows untouched), the
endpoint list is persisted, and the driver loop then exits without
re-raising. The `"interrupted"`-and-re-raise path runs only for a
`KeyboardInterrupt` exception inside the pass, which the installed
handler never produces. -/
theorem runPass_signal_vs_interrupt (rows : List ApiRow) (repos : List RepoItem)
    (idx : Nat) (stop0 : Bool) (hsel : selectIdx rows = some idx) :
    (runPass rows repos BatchEvent.sigint stop0).rows[idx]? =
      (rows[idx]?).map (fun r => { r with processed := "true", last_status := "ok" }) ∧
    (∀ j, j ≠ idx → (runPass rows repos BatchEvent.sigint stop0).rows[j]? = rows[j]?) ∧
    (runPass rows repos BatchEvent.sigint stop0).savedFile =
      some (save_api_rows (runPass rows repos BatchEvent.sigint stop0).rows) ∧
    (runPass rows repos BatchEvent.sigint stop0).stopRequested = true ∧
    (runPass rows repos BatchEvent.sigint stop0).raised = false ∧
    loopContinues (runPass rows repos BatchEvent.sigint stop0).stopRequested = false ∧
    (runPass rows repos BatchEvent.kbInterrupt stop0).rows[idx]? =
      (rows[idx]?).map
        (fun r => { r with processed := "true", last_status := "interrupted" }) ∧
    (runPass rows repos BatchEvent.kbInterrupt stop0).raised = true := by
  have hlt := selectIdx_lt rows idx hsel
  have hs : runPass rows repos BatchEvent.sigint stop0 =
      ⟨updateAt idx (fun r => { r with last_status := "ok", processed := "true" }) rows,
        some (save_api_rows
          (updateAt idx (fun r => { r with last_status := "ok", processed := "true" })
            rows)),
        true, false⟩ := by
    unfold runPass
    rw [hsel]
    rfl
  have hk : runPass rows repos BatchEvent.kbInterrupt stop0 =
      ⟨updateAt idx
          (fun r => { r with last_status := "interrupted", processed := "true" }) rows,
        some (save_api_rows
          (updateAt idx
            (fun r => { r with last_status := "interrupted", processed := "true" })
            rows)),
        stop0, true⟩ := by
    unfold runPass
    rw [hsel]
  refine ⟨?_, ?_, ?_, ?_, ?_, ?_, ?_, ?_⟩
  · rw [hs]
    exact updateAt_get_self rows idx _ hlt
  · intro j hj
    rw [hs]
    exact updateAt_get_other rows idx j _ hj
  · rw [hs]
  · rw [hs]
  · rw [hs]
  · rw [hs]
    rfl
  · rw [hk]
    exact updateAt_get_self rows idx _ hlt
  · rw [hk]

/-- Witness for C5's amended statement. -/
theorem runPass_signal_vs_interrupt_witness :
    (runPass [⟨"http://a/b", "", ""⟩] [] BatchEvent.sigint false).stopRequested
      = true :=
  (runPass_signal_vs_interrupt [⟨"http://a/b", "", ""⟩] [] 0 false
    (by decide)).2.2.2.1

/-! ### C6 -/

/-- C6: a non-200 response, or a 200 response whose JSON body has an
unrecognized shape, yields an empty repository list; the pass still marks
the selected endpoint `processed="true"` with `last_status="ok"`, persists
the endpoint list, raises nothing, and leaves the stop flag unchanged -
the Driver does not halt. -/
theorem fetch_failure_empty_and_marked_ok
    (status : Nat) (body : ApiJson) (rows : List ApiRow) (idx : Nat) (stop0 : Bool)
    (hbad : status ≠ 200 ∨ body = ApiJson.otherShape)
    (hsel : selectIdx rows = some idx) :
    fetch_repositories_from_api (some ⟨status, body⟩) = [] ∧
    (runPass rows (fetch_repositories_from_api (some ⟨status, body⟩))
        BatchEvent.normal stop0).rows[idx]? =
      (rows[idx]?).map (fun r => { r with processed := "true", last_status := "ok" }) ∧
    (runPass rows (fetch_repositories_from_api (some ⟨status, body⟩))
        BatchEvent.normal stop0).raised = false ∧
    (runPass rows (fetch_repositories_from_api (some ⟨status, body⟩))
        BatchEvent.normal stop0).stopRequested = stop0 ∧
    (runPass rows (fetch_repositories_from_api (some ⟨status, body⟩))
        BatchEvent.normal stop0).savedFile =
      some (save_api_rows
        (runPass rows (fetch_repositories_from_api (some ⟨status, body⟩))
          BatchEvent.normal stop0).rows) := by
  have hlt := selectIdx_lt rows idx hsel
  have hfetch : fetch_repositories_from_api (some ⟨status, body⟩) = [] := by
    rcases hbad with h | h
    · exact if_pos h
    · subst h
      by_cases hs2 : status ≠ 200
      · exact if_pos hs2
      · exact (if_neg hs2).trans rfl
  have hn : runPass rows (fetch_repositories_from_api (some ⟨status, body⟩))
        BatchEvent.normal stop0 =
      ⟨updateAt idx (fun r => { r with last_status := "ok", processed := "true" }) rows,
        some (save_api_rows
          (updateAt idx (fun r => { r with last_status := "ok", processed := "true" })
            rows)),
        stop0, false⟩ := by
    unfold runPass
    rw [hsel]
  refine ⟨hfetch, ?_, ?_, ?_, ?_⟩
  · rw [hn]
    exact updateAt_get_self rows idx _ hlt
  · rw [hn]
  · rw [hn]
  · rw [hn]

/-- Witness for C6: an HTTP 500 response carrying a well-shaped `items`
body still yields no repositories. -/
theorem fetch_failure_empty_and_marked_ok_witness :
    fetch_repositories_from_api
      (some ⟨500, ApiJson.objWithItems [⟨some "u", none⟩]⟩) = [] :=
  (fetch_failure_empty_and_marked_ok 500 (ApiJson.objWithItems [⟨some "u", none⟩])
    [⟨"http://a", "", ""⟩] 0 false (Or.inl (by decide)) (by decide)).1

end UnifiedJavaCompiler
